import Mathlib

/-!
Verification development for the botserver repository: a shallow embedding of
the resilient API-client facade (`src/bot/api_client.py`), the conversation
state machine (`src/bot/handlers.py`), the text-graph matrix projection
(`src/bot/bot.py`), and the server database layer (`src/server/main.py`),
together with theorems settling the specification claims.
-/

namespace BotServer

/-! ## Python string primitives, modelled over character lists -/

/-- Model of Python `str.lower()`: character-wise lowering. -/
def pyLower (s : String) : String := ⟨s.data.map Char.toLower⟩

/-- Helper for `pyWords`: scan the characters, accumulating the current word. -/
def splitWsAux : List Char → List Char → List String
  | [], acc => if acc.isEmpty then [] else [⟨acc⟩]
  | c :: rest, acc =>
    if c.isWhitespace then
      if acc.isEmpty then splitWsAux rest [] else (⟨acc⟩ : String) :: splitWsAux rest []
    else splitWsAux rest (acc ++ [c])

/-- Model of Python `str.split()` with no argument: split on runs of
whitespace, producing no empty pieces. -/
def pyWords (s : String) : List String := splitWsAux s.data []

/-- Model of list-prefix testing (used to model substring containment). -/
def isPreOf : List Char → List Char → Bool
  | [], _ => true
  | _ :: _, [] => false
  | a :: l1, b :: l2 => a = b && isPreOf l1 l2

/-- Helper: does `needle` occur as a contiguous sublist of the second list? -/
def hasSub (needle : List Char) : List Char → Bool
  | [] => isPreOf needle []
  | c :: t => isPreOf needle (c :: t) || hasSub needle t

/-- Model of Python `needle in hay` on strings: contiguous substring test. -/
def pyInStr (needle hay : String) : Bool := hasSub needle.data hay.data

/-- Model of Python `str.strip()`: drop whitespace from both ends. -/
def pyStrip (s : String) : String :=
  ⟨((s.data.dropWhile Char.isWhitespace).reverse.dropWhile Char.isWhitespace).reverse⟩

/-! ## Data model of the client (`src/bot/api_client.py`)

A cached note dictionary always carries the keys `id`, `user_id`, `title`,
`content`, `tags` (possibly `None`) and `created_at`, both when it mirrors a
server row and when `_add_note_local` builds it. -/

/-- Model of one note dictionary held in the client cache. -/
structure Note where
  id : Nat
  userId : Nat
  title : String
  content : String
  tags : Option String
  createdAt : Nat
deriving DecidableEq

/-- Model of a JSON scalar appearing in a response dictionary. -/
inductive Val
  | i : Nat → Val
  | s : String → Val
deriving DecidableEq

/-- Model of a JSON object (a Python dict) as an ordered key-value list. -/
abbrev Obj := List (String × Val)

/-- Shape of a result dictionary: its ordered list of keys. -/
def shape (o : Obj) : List String := o.map Prod.fst

/-- Model of `self._cache`: the per-owner entry keyed by `"notes_{user_id}"`,
represented as a map from the owner id to the optional entry. -/
abbrev Cache := Nat → Option (List Note)

/-- Model of `self._cache[key] = notes`. -/
def cacheUpdate (c : Cache) (uid : Nat) (notes : List Note) : Cache :=
  fun u => if u = uid then some notes else c u

/-- Model of `self._cache.pop(key, None)`. -/
def cachePop (c : Cache) (uid : Nat) : Cache :=
  fun u => if u = uid then none else c u

/-- Model of the freshly initialised empty cache. -/
def emptyCache : Cache := fun _ => none

/-- Network calls a facade operation can issue, for tracing. -/
inductive ApiCall
  | probe
  | postNote
  | getNotes
  | delNote
  | searchRemote
deriving DecidableEq

/-- Outcome of `GET /api/notes/{user_id}` as seen through `_make_request`:
the request failed (`None`), returned a non-list JSON value, or returned a
list of notes. -/
inductive FetchResult
  | failed
  | nonList
  | listOf : List Note → FetchResult
deriving DecidableEq

/-- Environment for one facade call: the health-probe outcome and the remote
responses the network would deliver, plus the current clock readings. -/
structure Env where
  healthy : Bool
  createResp : Option Obj
  fetch : FetchResult
  deleteOk : Bool
  nowMillis : Nat
  nowSec : Nat

/-- Result of a facade operation: the returned value, the cache afterwards,
and the trace of network calls, the health probe included. -/
structure FacadeOut (α : Type) where
  ret : α
  cache : Cache
  calls : List ApiCall

/-- Model of `APIClient._add_note_local`: the note dictionary it appends,
with `id` and `created_at` taken from the clock. -/
def localNote (env : Env) (uid : Nat) (title content : String)
    (tags : Option String) : Note :=
  ⟨env.nowMillis, uid, title, content, tags, env.nowSec⟩

/-- Model of `APIClient._add_note_local`: append the note to the owner's
cache entry (creating it when absent) and return `{"id": ..., "title": ...}`. -/
def addNoteLocal (c : Cache) (env : Env) (uid : Nat) (title content : String)
    (tags : Option String) : Obj × Cache :=
  let entry := (c uid).getD []
  ([("id", .i env.nowMillis), ("title", .s title)],
    cacheUpdate c uid (entry ++ [localNote env uid title content tags]))

/-- Model of `APIClient.add_note`: probe health; if unhealthy fall back to
the local path, otherwise POST the note; on a truthy response pop the owner's
cache entry and return the response, else fall back to the local path. -/
def add_note (c : Cache) (env : Env) (uid : Nat) (title content : String)
    (tags : Option String) : FacadeOut Obj :=
  if !env.healthy then
    let r := addNoteLocal c env uid title content tags
    ⟨r.1, r.2, [.probe]⟩
  else
    match env.createResp with
    | some o =>
      if o.isEmpty then
        let r := addNoteLocal c env uid title content tags
        ⟨r.1, r.2, [.probe, .postNote]⟩
      else
        ⟨o, cachePop c uid, [.probe, .postNote]⟩
    | none =>
      let r := addNoteLocal c env uid title content tags
      ⟨r.1, r.2, [.probe, .postNote]⟩

/-- Model of `APIClient.get_user_notes`: serve a present cache entry with no
network activity; otherwise probe health, and when healthy issue the GET,
populating the cache only when the response is a list; in every remaining
case return the empty list. -/
def get_user_notes (c : Cache) (env : Env) (uid : Nat) : FacadeOut (List Note) :=
  match c uid with
  | some notes => ⟨notes, c, []⟩
  | none =>
    if env.healthy then
      match env.fetch with
      | .listOf l => ⟨l, cacheUpdate c uid l, [.probe, .getNotes]⟩
      | _ => ⟨[], c, [.probe, .getNotes]⟩
    else ⟨[], c, [.probe]⟩

/-- Model of Python `str(x)` applied to the `tags` value, which is either a
string or `None`; `str(None)` is the string `"None"`. -/
def pyStrOfTags : Option String → String
  | some s => s
  | none => "None"

/-- Model of the match test inside `APIClient.search_notes`: the lowered
query occurs in the lowered title, content, or stringified tags. -/
def noteMatches (q : String) (n : Note) : Bool :=
  let ql := pyLower q
  pyInStr ql (pyLower n.title) || pyInStr ql (pyLower n.content) ||
    pyInStr ql (pyLower (pyStrOfTags n.tags))

/-- Model of `APIClient.search_notes`: obtain the owner's notes through
`get_user_notes`, return `[]` when there are none, else filter them by
`noteMatches`; no remote search endpoint is ever contacted. -/
def search_notes (c : Cache) (env : Env) (uid : Nat) (q : String) :
    FacadeOut (List Note) :=
  let out := get_user_notes c env uid
  if out.ret.isEmpty then ⟨[], out.cache, out.calls⟩
  else ⟨out.ret.filter (noteMatches q), out.cache, out.calls⟩

/-- Model of `APIClient.delete_note`: probe health; when healthy issue the
remote DELETE and on a non-`None` response pop the cache entry and succeed;
otherwise filter the owner's cache entry by id and succeed exactly when the
entry shrank. -/
def delete_note (c : Cache) (env : Env) (nid uid : Nat) : FacadeOut Bool :=
  let localPath : List ApiCall → FacadeOut Bool := fun calls =>
    match c uid with
    | some notes =>
      let notes' := notes.filter (fun n => n.id ≠ nid)
      if notes'.length < notes.length then
        ⟨true, cacheUpdate c uid notes', calls⟩
      else
        ⟨false, cacheUpdate c uid notes', calls⟩
    | none => ⟨false, c, calls⟩
  if env.healthy then
    if env.deleteOk then ⟨true, cachePop c uid, [.probe, .delNote]⟩
    else localPath [.probe, .delNote]
  else localPath [.probe]

/-! ## Server database layer (`src/server/main.py`) -/

/-- Model of one row of the `notes` table. -/
structure SNote where
  id : Nat
  userId : Nat
  title : String
  content : String
  tags : Option String
deriving DecidableEq

/-- Model of one row of the `note_links` table. -/
structure SLink where
  fromId : Nat
  toId : Nat
deriving DecidableEq

/-- Model of the server database: the two tables and the `AUTOINCREMENT`
sequence value for `notes` (the largest id ever assigned). -/
structure ServerDb where
  notes : List SNote
  links : List SLink
  seq : Nat
deriving DecidableEq

/-- Model of `Database.add_note`: insert a row with the next sequence id and
return `cursor.lastrowid`. -/
def dbAddNote (db : ServerDb) (uid : Nat) (title content : String)
    (tags : Option String) : ServerDb × Nat :=
  let nid := db.seq + 1
  (⟨db.notes ++ [⟨nid, uid, title, content, tags⟩], db.links, nid⟩, nid)

/-- Model of `Database.delete_note`: first delete every link touching the
note id, then delete the note row matching both id and owner, and report
whether the second delete removed anything. -/
def dbDeleteNote (db : ServerDb) (nid uid : Nat) : ServerDb × Bool :=
  let links' := db.links.filter (fun l => !(l.fromId = nid || l.toId = nid))
  let notes' := db.notes.filter (fun n => !(n.id = nid && n.userId = uid))
  (⟨notes', links', db.seq⟩, notes'.length < db.notes.length)

/-- Model of the `POST /api/notes` endpoint `create_note`: insert and answer
`{"id": ..., "message": "Note created", "status": "success"}`. -/
def createNoteEndpoint (db : ServerDb) (uid : Nat) (title content : String)
    (tags : Option String) : ServerDb × Obj :=
  let r := dbAddNote db uid title content tags
  (r.1, [("id", .i r.2), ("message", .s "Note created"), ("status", .s "success")])

/-- Model of the `DELETE /api/notes/{note_id}` endpoint: a success body on a
successful database delete, otherwise an HTTP 404 error. -/
def deleteNoteEndpoint (db : ServerDb) (nid uid : Nat) :
    ServerDb × Except Nat Obj :=
  let r := dbDeleteNote db nid uid
  if r.2 then
    (r.1, .ok [("message", .s "Note deleted"), ("status", .s "success")])
  else
    (r.1, .error 404)

/-! ## Graph assembler (`Database.get_all_notes_graph`) -/

/-- Lookup in an association list keyed by note id (Python dict access). -/
def alookup : List (Nat × List Nat) → Nat → Option (List Nat)
  | [], _ => none
  | e :: rest, x => if e.1 = x then some e.2 else alookup rest x

/-- Model of `if k not in graph: graph[k] = []`. -/
def ensureKey (g : List (Nat × List Nat)) (k : Nat) : List (Nat × List Nat) :=
  match alookup g k with
  | some _ => g
  | none => g ++ [(k, [])]

/-- Model of `graph[k].append(v)`. -/
def appendNbr (g : List (Nat × List Nat)) (k v : Nat) : List (Nat × List Nat) :=
  g.map (fun e => if e.1 = k then (e.1, e.2 ++ [v]) else e)

/-- Model of one iteration of the link loop in `get_all_notes_graph`:
materialise both keys, then append each endpoint to the other's list. -/
def graphStep (g : List (Nat × List Nat)) (l : Nat × Nat) : List (Nat × List Nat) :=
  appendNbr (appendNbr (ensureKey (ensureKey g l.1) l.2) l.1 l.2) l.2 l.1

/-- Neighbour list of a node in the assembled adjacency (empty when the key
is absent). -/
def nbrs (g : List (Nat × List Nat)) (k : Nat) : List Nat := (alookup g k).getD []

/-- Model of `Database.get_all_notes_graph`: the user's notes as (id, title)
pairs, and the adjacency folded from the links whose two endpoints both
belong to the user's notes. -/
def get_all_notes_graph (notes : List (Nat × String)) (links : List (Nat × Nat)) :
    List (Nat × String) × List (Nat × List Nat) :=
  let noteIds := notes.map Prod.fst
  let userLinks := links.filter (fun l => noteIds.contains l.1 && noteIds.contains l.2)
  (notes, userLinks.foldl graphStep [])

/-! ## Matrix projection (`send_image_graph` in `src/bot/bot.py`) -/

/-- Model of one element of `notes_list`: a dict with optional `id` and
`title` entries, or a non-dict value (for example a bare title string). -/
inductive NoteItem
  | obj : Option Nat → Option String → NoteItem
  | raw : String → NoteItem
deriving DecidableEq

/-- Model of `str(note.get('title', '')).lower() if isinstance(note, dict)
else ''` as computed for a matrix cell. -/
def itemTitleLower : NoteItem → String
  | .obj _ (some t) => pyLower t
  | .obj _ none => ""
  | .raw _ => ""

/-- Model of the shared-word test: the two lowered titles, split on
whitespace, have a non-empty set intersection. -/
def sharesWord (t1 t2 : String) : Bool :=
  (pyWords t1).any (fun w => (pyWords t2).contains w)

/-- Input to `send_image_graph` after `api.get_note_graph`: the note list in
iteration order and the adjacency mapping from the payload (which the matrix
code never consults). -/
structure GraphData where
  notesList : List NoteItem
  graph : List (Nat × List Nat)
deriving DecidableEq

/-- Model of `matrix_size = min(notes_count, 10)`. -/
def matrixSize (d : GraphData) : Nat := min d.notesList.length 10

/-- Model of one matrix cell of `send_image_graph`: the self-marker on the
diagonal, else `"1"` exactly when the two titles share a word. -/
def matrixCell (d : GraphData) (i j : Nat) : String :=
  if i = j then "•"
  else
    let n1 := d.notesList.getD i (.obj none none)
    let n2 := d.notesList.getD j (.obj none none)
    if sharesWord (itemTitleLower n1) (itemTitleLower n2) then "1" else "0"

/-- Claim-stated reading of a cell's meaning: the items at positions `i` and
`j` carry ids `a`, `b` and `b` is adjacent to `a` in the payload's explicit
link data. -/
def specAdjacent (d : GraphData) (i j : Nat) : Bool :=
  match d.notesList.getD i (.obj none none), d.notesList.getD j (.obj none none) with
  | .obj (some a) _, .obj (some b) _ => (nbrs d.graph a).contains b
  | _, _ => false

/-! ## Conversation state machine (`_handle_state_message` in handlers.py) -/

/-- Phase tag stored under the `'state'` key of a conversation entry. -/
inductive ConvPhase
  | waitingTitle
  | waitingContent
  | waitingTags
deriving DecidableEq

/-- Model of one `user_states[chat_id]` entry: the phase plus the optional
`title` and `content` fields collected so far. -/
structure ConvData where
  phase : ConvPhase
  title : Option String
  content : Option String
deriving DecidableEq

/-- Record of one `api.add_note` invocation made while handling a message. -/
structure CreateCall where
  title : String
  content : String
  tags : Option String
deriving DecidableEq

/-- Exact text of the cancel button checked by `_handle_state_message`. -/
def cancelText : String := "❌ Отмена"

/-- Model of `message.text.strip() or None`. -/
def stripOrNone (s : String) : Option String :=
  let t := pyStrip s
  if t = "" then none else some t

/-- Model of `_handle_state_message` for a conversation that has a state
entry: the new entry (`none` meaning the entry was deleted, i.e. idle) and
the list of create calls issued. The state entry is deleted before the
create outcome is inspected, so the result does not depend on it. -/
def handleStateMessage (sd : ConvData) (text : String) :
    Option ConvData × List CreateCall :=
  if text = cancelText then (none, [])
  else
    match sd.phase with
    | .waitingTitle => (some ⟨.waitingContent, some text, none⟩, [])
    | .waitingContent =>
      match sd.title with
      | none => (none, [])
      | some t => (some ⟨.waitingTags, some t, some text⟩, [])
    | .waitingTags =>
      match sd.title, sd.content with
      | some t, some c => (none, [⟨t, c, stripOrNone text⟩])
      | _, _ => (none, [])

/-! ## Spec-stated comparison definitions and concrete example data -/

/-- Spec-stated match predicate for search: the lowered query occurs in the
lowered title, content, or tag text, where a note without tags contributes
empty tag text. -/
def specMatchesNote (q : String) (n : Note) : Bool :=
  let ql := pyLower q
  pyInStr ql (pyLower n.title) || pyInStr ql (pyLower n.content) ||
    pyInStr ql (pyLower (n.tags.getD ""))

/-- Amended match predicate for search: as the spec states it, except that
the tag text is the Python string rendering of the tags value, so a note
without tags contributes the text `"None"`. -/
def amendedMatchesNote (q : String) (n : Note) : Bool :=
  let ql := pyLower q
  pyInStr ql (pyLower n.title) || pyInStr ql (pyLower n.content) ||
    pyInStr ql (pyLower (pyStrOfTags n.tags))

/-- Example note without tags, cached for owner 1. -/
def exNoteNoTags : Note := ⟨7, 1, "a", "b", none, 0⟩

/-- Example cache holding only owner 1's entry `[exNoteNoTags]`. -/
def exCachePopulated : Cache := cacheUpdate emptyCache 1 [exNoteNoTags]

/-- Example environment with the remote service down. -/
def exEnvDown : Env := ⟨false, none, .failed, false, 0, 0⟩

/-- Example environment: healthy probe, create answered by the server
endpoint run on an empty database. -/
def exEnvUp : Env :=
  ⟨true, some (createNoteEndpoint ⟨[], [], 0⟩ 1 "T" "C" none).2, .failed, false, 0, 0⟩

/-- Example graph payload: two notes with ids 1, 2 linked both ways in the
explicit adjacency, titles sharing no word. -/
def exGraphData : GraphData :=
  ⟨[.obj (some 1) (some "Alpha"), .obj (some 2) (some "Beta")], [(1, [2]), (2, [1])]⟩

/-- Example server database: one note owned by user 1 and one link touching
it; sequence value 1. -/
def exDbForeign : ServerDb := ⟨[⟨1, 1, "a", "b", none⟩], [⟨1, 2⟩], 1⟩

/-! ## Claim theorems -/

/-- C1: the facade create first probes health; on a healthy probe and a
successful remote create it returns the remote result and removes exactly
that owner's cache entry; on an unhealthy probe or a failed remote create it
appends a locally identified note to the owner's cache entry and returns the
local result `{"id", "title"}`. -/
theorem facade_create_routing (c : Cache) (env : Env) (uid : Nat)
    (title content : String) (tags : Option String) :
    (env.healthy = true → ∀ o : Obj, env.createResp = some o → o ≠ [] →
      (add_note c env uid title content tags).ret = o ∧
      (add_note c env uid title content tags).cache uid = none ∧
      (∀ u, u ≠ uid → (add_note c env uid title content tags).cache u = c u)) ∧
    ((env.healthy = false ∨ env.createResp = none →
      (add_note c env uid title content tags).ret =
        [("id", .i env.nowMillis), ("title", .s title)] ∧
      (add_note c env uid title content tags).cache uid =
        some ((c uid).getD [] ++ [localNote env uid title content tags]))) ∧
    (add_note c env uid title content tags).calls.head? = some .probe := by
  refine ⟨?_, ?_, ?_⟩
  · intro hh o ho hne
    have hemp : o.isEmpty = false := by
      cases o with
      | nil => exact absurd rfl hne
      | cons a l => rfl
    simp [add_note, hh, ho, hemp, cachePop]
    intro u hu
    simp [hu]
  · rintro (hh | hh)
    · simp [add_note, hh, addNoteLocal, cacheUpdate]
    · by_cases hhl : env.healthy <;>
        simp [add_note, hh, hhl, addNoteLocal, cacheUpdate]
  · by_cases hh : env.healthy <;> cases hcr : env.createResp with
    | none => simp [add_note, hh, hcr, addNoteLocal]
    | some o =>
      by_cases hemp : o.isEmpty <;> simp [add_note, hh, hcr, hemp, addNoteLocal]

/-- Witness for C1 at concrete inputs: the remote branch with the server's
actual response, and the degraded branch appending to an empty cache. -/
theorem facade_create_routing_witness :
    (add_note emptyCache exEnvUp 1 "T" "C" none).ret =
      [("id", .i 1), ("message", .s "Note created"), ("status", .s "success")] ∧
    (add_note emptyCache exEnvDown 1 "T" "C" none).cache 1 =
      some [localNote exEnvDown 1 "T" "C" none] := by
  constructor
  · exact ((facade_create_routing emptyCache exEnvUp 1 "T" "C" none).1 rfl
      _ rfl (by decide)).1
  · have h := ((facade_create_routing emptyCache exEnvDown 1 "T" "C" none).2.1
      (Or.inl rfl)).2
    simpa [emptyCache] using h

/-- C2: the facade list serves a present cache entry unchanged with no
probe and no network call; on a miss it probes, and a healthy probe with a
list response populates the cache and returns it, while an unhealthy probe
or a failed or non-list fetch yields the empty sequence (the operation is a
total function, so it never raises). -/
theorem facade_list_routing (c : Cache) (env : Env) (uid : Nat) :
    (∀ notes, c uid = some notes →
      get_user_notes c env uid = ⟨notes, c, []⟩) ∧
    (c uid = none → env.healthy = true → ∀ l, env.fetch = .listOf l →
      (get_user_notes c env uid).ret = l ∧
      (get_user_notes c env uid).cache uid = some l ∧
      (∀ u, u ≠ uid → (get_user_notes c env uid).cache u = c u)) ∧
    (c uid = none →
      env.healthy = false ∨ env.fetch = .failed ∨ env.fetch = .nonList →
      (get_user_notes c env uid).ret = []) := by
  refine ⟨?_, ?_, ?_⟩
  · intro notes h
    simp [get_user_notes, h]
  · intro hmiss hh l hf
    simp [get_user_notes, hmiss, hh, hf, cacheUpdate]
    intro u hu
    simp [hu]
  · intro hmiss hcases
    rcases hcases with hh | hf | hf
    · simp [get_user_notes, hmiss, hh]
    · by_cases hh : env.healthy <;> simp [get_user_notes, hmiss, hh, hf]
    · by_cases hh : env.healthy <;> simp [get_user_notes, hmiss, hh, hf]

/-- Witness for C2 at concrete inputs: a cache hit is served as-is with an
empty call trace, and a miss with the service down yields the empty list. -/
theorem facade_list_routing_witness :
    get_user_notes exCachePopulated exEnvDown 1 =
      ⟨[exNoteNoTags], exCachePopulated, []⟩ ∧
    (get_user_notes emptyCache exEnvDown 2).ret = [] := by
  constructor
  · exact (facade_list_routing exCachePopulated exEnvDown 1).1 [exNoteNoTags] rfl
  · exact (facade_list_routing emptyCache exEnvDown 2).2.2 rfl (Or.inl rfl)

/-- Helper: the local removal filter shrinks the entry exactly when a note
with the requested id is present. -/
theorem removal_shrinks_iff_mem (notes : List Note) (nid : Nat) :
    ((notes.filter (fun n => n.id ≠ nid)).length < notes.length ↔
      ∃ n ∈ notes, n.id = nid) := by
  rw [List.length_filter_lt_length_iff_exists]
  simp

/-- C3: the facade delete probes health first; a healthy probe with a
successful remote delete pops the owner's cache entry and succeeds; an
unhealthy probe or a failed remote delete falls back to local removal, which
succeeds exactly when the owner's cache entry held a note with that id. -/
theorem facade_delete_routing (c : Cache) (env : Env) (nid uid : Nat) :
    (env.healthy = true → env.deleteOk = true →
      (delete_note c env nid uid).ret = true ∧
      (delete_note c env nid uid).cache uid = none) ∧
    (env.healthy = false ∨ env.deleteOk = false →
      ((delete_note c env nid uid).ret = true ↔
        ∃ n ∈ (c uid).getD [], n.id = nid)) ∧
    (delete_note c env nid uid).calls.head? = some .probe := by
  have hcase : ∀ (notes : List Note) (calls : List ApiCall),
      ((if (notes.filter (fun (n : Note) => n.id ≠ nid)).length < notes.length then
          (⟨true, cacheUpdate c uid (notes.filter (fun (n : Note) => n.id ≠ nid)),
            calls⟩ : FacadeOut Bool)
        else
          ⟨false, cacheUpdate c uid (notes.filter (fun (n : Note) => n.id ≠ nid)),
            calls⟩).ret = true ↔ ∃ n ∈ notes, n.id = nid) := by
    intro notes calls
    rw [← removal_shrinks_iff_mem notes nid]
    by_cases hlen : (notes.filter (fun (n : Note) => n.id ≠ nid)).length < notes.length
    · rw [if_pos hlen]
      simpa using hlen
    · rw [if_neg hlen]
      simpa using hlen
  refine ⟨?_, ?_, ?_⟩
  · intro hh hd
    simp [delete_note, hh, hd, cachePop]
  · rintro (hh | hd)
    · cases hc : c uid with
      | none => simp [delete_note, hh, hc]
      | some notes => simpa [delete_note, hh, hc] using hcase notes [.probe]
    · by_cases hh : env.healthy
      · cases hc : c uid with
        | none => simp [delete_note, hh, hd, hc]
        | some notes => simpa [delete_note, hh, hd, hc] using hcase notes [.probe, .delNote]
      · simp only [Bool.not_eq_true] at hh
        cases hc : c uid with
        | none => simp [delete_note, hh, hc]
        | some notes => simpa [delete_note, hh, hc] using hcase notes [.probe]
  · by_cases hh : env.healthy <;> by_cases hd : env.deleteOk <;>
      cases hc : c uid <;>
      simp [delete_note, hh, hd, hc] <;>
      split <;> simp

/-- Witness for C3 at concrete inputs: remote path success pops the cache;
degraded path succeeds on the cached note's id and fails on a missing id. -/
theorem facade_delete_routing_witness :
    ((delete_note exCachePopulated ⟨true, none, .failed, true, 0, 0⟩ 7 1).ret = true ∧
      (delete_note exCachePopulated ⟨true, none, .failed, true, 0, 0⟩ 7 1).cache 1 = none) ∧
    (delete_note exCachePopulated exEnvDown 7 1).ret = true ∧
    ¬ (delete_note exCachePopulated exEnvDown 8 1).ret = true := by
  refine ⟨?_, ?_, ?_⟩
  · exact (facade_delete_routing exCachePopulated ⟨true, none, .failed, true, 0, 0⟩ 7 1).1
      rfl rfl
  · exact ((facade_delete_routing exCachePopulated exEnvDown 7 1).2.1
      (Or.inl rfl)).2 ⟨exNoteNoTags, by decide⟩
  · intro h
    have := ((facade_delete_routing exCachePopulated exEnvDown 8 1).2.1
      (Or.inl rfl)).1 h
    revert this
    decide

/-- C6: in any non-idle conversation state the cancel input deletes the
state entry with no create call; from the tags-awaiting state any non-cancel
input issues exactly one create call carrying the accumulated title, content
and stripped tags (the empty input becoming no tags), and the entry is
deleted — independently of the create outcome, which the transition never
inspects. -/
theorem conv_state_machine (sd : ConvData) :
    handleStateMessage sd cancelText = (none, []) ∧
    (∀ text, text ≠ cancelText → sd.phase = .waitingTags →
      ∀ t ct, sd.title = some t → sd.content = some ct →
        handleStateMessage sd text = (none, [⟨t, ct, stripOrNone text⟩])) := by
  constructor
  · simp [handleStateMessage]
  · intro text hne hph t ct ht hct
    simp [handleStateMessage, hne, hph, ht, hct]

/-- Witness for C6 at concrete inputs: cancel from the content-awaiting
state, and an empty tags input committing one create with no tags. -/
theorem conv_state_machine_witness :
    handleStateMessage ⟨.waitingContent, some "T", none⟩ cancelText = (none, []) ∧
    handleStateMessage ⟨.waitingTags, some "T", some "C"⟩ "" =
      (none, [⟨"T", "C", none⟩]) := by
  constructor
  · exact (conv_state_machine ⟨.waitingContent, some "T", none⟩).1
  · have h := (conv_state_machine ⟨.waitingTags, some "T", some "C"⟩).2 ""
      (by decide) rfl "T" "C" rfl rfl
    simpa [stripOrNone, pyStrip] using h

/-- C10: the server delete is not atomic on error: when no note matches both
the id and the owner, the endpoint answers 404 and the note table is
unchanged, yet every link touching the id has already been removed from the
link table. -/
theorem server_delete_not_atomic (db : ServerDb) (nid uid : Nat)
    (h : ∀ n ∈ db.notes, ¬(n.id = nid ∧ n.userId = uid)) :
    (deleteNoteEndpoint db nid uid).2 = .error 404 ∧
    ((deleteNoteEndpoint db nid uid).1).links =
      db.links.filter (fun l => !(l.fromId = nid || l.toId = nid)) ∧
    ((deleteNoteEndpoint db nid uid).1).notes = db.notes := by
  have hfil : db.notes.filter (fun n => !(n.id = nid && n.userId = uid)) = db.notes := by
    refine List.filter_eq_self.2 ?_
    intro n hn
    have hn' := h n hn
    simp only [Bool.not_eq_true', Bool.and_eq_true, decide_eq_true_eq] at hn' ⊢
    by_cases h1 : n.id = nid
    · simp [h1]
      exact fun h2 => hn' ⟨h1, h2⟩
    · simp [h1]
  have hlen : ¬ ((db.notes.filter (fun n => !(n.id = nid && n.userId = uid))).length
      < db.notes.length) := by
    rw [hfil]
    exact lt_irrefl _
  refine ⟨?_, ?_, ?_⟩ <;>
    · simp only [deleteNoteEndpoint, dbDeleteNote, hfil]
      simp

/-- Witness for C10 at a concrete input: deleting note 1 as the wrong owner
answers 404 while the link (1, 2) has been removed from the link table. -/
theorem server_delete_not_atomic_witness :
    (deleteNoteEndpoint exDbForeign 1 2).2 = .error 404 ∧
    ((deleteNoteEndpoint exDbForeign 1 2).1).links = [] := by
  constructor
  · exact (server_delete_not_atomic exDbForeign 1 2 (by decide)).1
  · have h := (server_delete_not_atomic exDbForeign 1 2 (by decide)).2.1
    simpa [exDbForeign] using h

/-- Helper: a successful lookup is unchanged by appending entries. -/
theorem alookup_append_of_some {g : List (Nat × List Nat)} {k : Nat}
    {v : List Nat} (h : alookup g k = some v) (l2 : List (Nat × List Nat)) :
    alookup (g ++ l2) k = some v := by
  induction g with
  | nil => simp [alookup] at h
  | cons e rest ih =>
    by_cases he : e.1 = k
    · simp [alookup, he] at h ⊢
      exact h
    · simp [alookup, he] at h ⊢
      exact ih h

/-- Helper: a failed lookup defers to the appended entries. -/
theorem alookup_append_of_none {g : List (Nat × List Nat)} {k : Nat}
    (h : alookup g k = none) (l2 : List (Nat × List Nat)) :
    alookup (g ++ l2) k = alookup l2 k := by
  induction g with
  | nil => rfl
  | cons e rest ih =>
    by_cases he : e.1 = k
    · simp [alookup, he] at h
    · simp [alookup, he] at h ⊢
      exact ih h

/-- Helper: how `appendNbr` transforms every lookup. -/
theorem alookup_appendNbr (g : List (Nat × List Nat)) (j v k : Nat) :
    alookup (appendNbr g j v) k =
      (alookup g k).map (fun l => if k = j then l ++ [v] else l) := by
  induction g with
  | nil => simp [alookup, appendNbr]
  | cons e rest ih =>
    simp only [appendNbr] at ih
    by_cases hj : e.1 = j
    · by_cases hk : e.1 = k
      · have hkj : k = j := by rw [← hk, hj]
        simp [appendNbr, alookup, hj, hk, hkj]
      · have hjk : ¬ j = k := by rw [← hj]; exact hk
        simp [appendNbr, alookup, hj, hk, hjk, ih]
    · by_cases hk : e.1 = k
      · have hkj : ¬ k = j := by rw [← hk]; exact fun hx => hj hx
        simp [appendNbr, alookup, hj, hk, hkj]
      · simp [appendNbr, alookup, hj, hk, ih]

/-- Helper: `ensureKey` makes the key present. -/
theorem alookup_ensureKey_isSome (g : List (Nat × List Nat)) (k : Nat) :
    (alookup (ensureKey g k) k).isSome := by
  unfold ensureKey
  cases hc : alookup g k with
  | some v => simp [hc]
  | none => rw [alookup_append_of_none hc]; simp [alookup]

/-- Helper: `ensureKey` keeps every present key present. -/
theorem alookup_ensureKey_mono {g : List (Nat × List Nat)} {k : Nat}
    (h : (alookup g k).isSome) (j : Nat) :
    (alookup (ensureKey g j) k).isSome := by
  unfold ensureKey
  cases hc : alookup g j with
  | some v => exact h
  | none =>
    cases hk : alookup g k with
    | some v => rw [alookup_append_of_some hk]; rfl
    | none => rw [hk] at h; simp at h

/-- Helper: `appendNbr` keeps every present key present. -/
theorem alookup_appendNbr_isSome {g : List (Nat × List Nat)} {k : Nat}
    (h : (alookup g k).isSome) (j v : Nat) :
    (alookup (appendNbr g j v) k).isSome := by
  rw [alookup_appendNbr]
  cases hk : alookup g k with
  | some l => rfl
  | none => rw [hk] at h; simp at h

/-- Helper: `appendNbr` on a present key puts the value in its list. -/
theorem mem_nbrs_appendNbr_self {g : List (Nat × List Nat)} {k : Nat}
    (h : (alookup g k).isSome) (v : Nat) : v ∈ nbrs (appendNbr g k v) k := by
  unfold nbrs
  rw [alookup_appendNbr]
  cases hk : alookup g k with
  | some l => simp
  | none => rw [hk] at h; simp at h

/-- Helper: `appendNbr` preserves neighbour membership. -/
theorem mem_nbrs_appendNbr_mono {g : List (Nat × List Nat)} {k x : Nat}
    (h : x ∈ nbrs g k) (j v : Nat) : x ∈ nbrs (appendNbr g j v) k := by
  unfold nbrs at h ⊢
  rw [alookup_appendNbr]
  cases hk : alookup g k with
  | some l =>
    rw [hk] at h
    by_cases hkj : k = j <;> simp [hkj]
    · left
      simpa using h
    · simpa using h
  | none => rw [hk] at h; simp at h

/-- Helper: `ensureKey` preserves neighbour membership. -/
theorem mem_nbrs_ensureKey_mono {g : List (Nat × List Nat)} {k x : Nat}
    (h : x ∈ nbrs g k) (j : Nat) : x ∈ nbrs (ensureKey g j) k := by
  unfold nbrs at h ⊢
  unfold ensureKey
  cases hc : alookup g j with
  | some v => exact h
  | none =>
    cases hk : alookup g k with
    | some v => rw [alookup_append_of_some hk]; rw [hk] at h; exact h
    | none => rw [hk] at h; simp at h

/-- Helper: one assembly step preserves neighbour membership. -/
theorem mem_nbrs_graphStep_mono {g : List (Nat × List Nat)} {k x : Nat}
    (h : x ∈ nbrs g k) (l : Nat × Nat) : x ∈ nbrs (graphStep g l) k := by
  unfold graphStep
  exact mem_nbrs_appendNbr_mono
    (mem_nbrs_appendNbr_mono
      (mem_nbrs_ensureKey_mono (mem_nbrs_ensureKey_mono h l.1) l.2) l.1 l.2) l.2 l.1

/-- Helper: one assembly step on link `(a, b)` records both directions. -/
theorem mem_nbrs_graphStep_self (g : List (Nat × List Nat)) (a b : Nat) :
    b ∈ nbrs (graphStep g (a, b)) a ∧ a ∈ nbrs (graphStep g (a, b)) b := by
  have ha : (alookup (ensureKey (ensureKey g a) b) a).isSome :=
    alookup_ensureKey_mono (alookup_ensureKey_isSome g a) b
  have hb : (alookup (ensureKey (ensureKey g a) b) b).isSome :=
    alookup_ensureKey_isSome (ensureKey g a) b
  have hb3 : (alookup (appendNbr (ensureKey (ensureKey g a) b) a b) b).isSome :=
    alookup_appendNbr_isSome hb a b
  constructor
  · exact mem_nbrs_appendNbr_mono (mem_nbrs_appendNbr_self ha b) b a
  · exact mem_nbrs_appendNbr_self hb3 a

/-- Helper: folding further links preserves neighbour membership. -/
theorem foldl_graphStep_mono (L : List (Nat × Nat)) (g : List (Nat × List Nat))
    {k x : Nat} (h : x ∈ nbrs g k) : x ∈ nbrs (L.foldl graphStep g) k := by
  induction L generalizing g with
  | nil => exact h
  | cons l rest ih => exact ih _ (mem_nbrs_graphStep_mono h l)

/-- Helper: every processed link ends up recorded in both directions. -/
theorem foldl_graphStep_mem (L : List (Nat × Nat)) (g : List (Nat × List Nat))
    {a b : Nat} (h : (a, b) ∈ L) :
    b ∈ nbrs (L.foldl graphStep g) a ∧ a ∈ nbrs (L.foldl graphStep g) b := by
  induction L generalizing g with
  | nil => cases h
  | cons l rest ih =>
    rcases List.mem_cons.1 h with heq | hmem
    · rw [← heq]
      refine ⟨?_, ?_⟩
      · exact foldl_graphStep_mono rest _ (mem_nbrs_graphStep_self g a b).1
      · exact foldl_graphStep_mono rest _ (mem_nbrs_graphStep_self g a b).2
    · exact ih _ hmem

/-- C4: for every note set and every directed link over it, the assembled
adjacency is symmetric: each endpoint appears in the other's neighbour
list. -/
theorem graph_adjacency_symmetric (notes : List (Nat × String))
    (links : List (Nat × Nat)) (a b : Nat) (hmem : (a, b) ∈ links)
    (ha : a ∈ notes.map Prod.fst) (hb : b ∈ notes.map Prod.fst) :
    b ∈ nbrs (get_all_notes_graph notes links).2 a ∧
    a ∈ nbrs (get_all_notes_graph notes links).2 b := by
  have hf : (a, b) ∈ links.filter
      (fun l => (notes.map Prod.fst).contains l.1 &&
        (notes.map Prod.fst).contains l.2) := by
    refine List.mem_filter.2 ⟨hmem, ?_⟩
    simp only [Bool.and_eq_true, List.contains_iff_exists_mem_beq]
    exact ⟨⟨a, ha, by simp⟩, ⟨b, hb, by simp⟩⟩
  simpa only [get_all_notes_graph] using
    foldl_graphStep_mem (links.filter
      (fun l => (notes.map Prod.fst).contains l.1 &&
        (notes.map Prod.fst).contains l.2)) [] hf

/-- Witness for C4 at a concrete input: two notes and the single directed
link (1, 2) yield both directions in the assembled adjacency. -/
theorem graph_adjacency_symmetric_witness :
    2 ∈ nbrs (get_all_notes_graph [(1, "Alpha"), (2, "Beta")] [(1, 2)]).2 1 ∧
    1 ∈ nbrs (get_all_notes_graph [(1, "Alpha"), (2, "Beta")] [(1, 2)]).2 2 :=
  graph_adjacency_symmetric [(1, "Alpha"), (2, "Beta")] [(1, 2)] 1 2
    (by decide) (by decide) (by decide)

/-- Helper: `sharesWord` decides the existence of a common word. -/
theorem sharesWord_iff (a b : String) :
    sharesWord a b = true ↔ ∃ w, w ∈ pyWords a ∧ w ∈ pyWords b := by
  simp only [sharesWord, List.any_eq_true, List.contains_iff_exists_mem_beq, beq_iff_eq]
  constructor
  · rintro ⟨w, hwa, w', hw'b, rfl⟩
    exact ⟨w, hwa, hw'b⟩
  · rintro ⟨w, hwa, hwb⟩
    exact ⟨w, hwa, w, hwb, rfl⟩

/-- Helper: word sharing is symmetric in its two titles. -/
theorem sharesWord_comm (a b : String) : sharesWord a b = sharesWord b a := by
  have h : ∀ x y : String, sharesWord x y = true → sharesWord y x = true := by
    intro x y hxy
    rcases (sharesWord_iff x y).mp hxy with ⟨w, hwx, hwy⟩
    exact (sharesWord_iff y x).mpr ⟨w, hwy, hwx⟩
  cases h1 : sharesWord a b
  · cases h2 : sharesWord b a
    · rfl
    · exact absurd (h b a h2) (by simp [h1])
  · exact (h a b h1).symm

/-- C5 counterexample: with explicit link data present and nodes 1, 2
adjacent, the off-diagonal cell is still `"0"` because the titles share no
word — the heuristic is used unconditionally, not only when link data is
unavailable, refuting the claim as stated. -/
theorem matrix_heuristic_cex :
    0 < matrixSize exGraphData ∧ 1 < matrixSize exGraphData ∧ (0 : Nat) ≠ 1 ∧
    specAdjacent exGraphData 0 1 = true ∧ matrixCell exGraphData 0 1 = "0" := by
  decide

/-- C5 amended: the matrix covers at most the first 10 nodes, the diagonal
is always the self-marker, every off-diagonal cell is `"1"` or `"0"`
according to the title-token heuristic regardless of the payload's link
data, and the matrix is symmetric. -/
theorem matrix_projection_props (d : GraphData) (i j : Nat) :
    matrixSize d ≤ 10 ∧
    matrixCell d i i = "•" ∧
    (i ≠ j → matrixCell d i j =
      (if sharesWord (itemTitleLower (d.notesList.getD i (.obj none none)))
          (itemTitleLower (d.notesList.getD j (.obj none none)))
        then "1" else "0")) ∧
    (∀ g2 : List (Nat × List Nat), matrixCell ⟨d.notesList, g2⟩ i j = matrixCell d i j) ∧
    matrixCell d i j = matrixCell d j i := by
  refine ⟨?_, ?_, ?_, ?_, ?_⟩
  · exact min_le_right _ _
  · simp [matrixCell]
  · intro hne
    simp [matrixCell, hne]
  · intro g2
    rfl
  · by_cases hij : i = j
    · rw [hij]
    · have hji : ¬ j = i := fun hx => hij hx.symm
      simp only [matrixCell, hij, hji, if_neg, not_false_iff]
      rw [sharesWord_comm]

/-- Witness for C5 (amended) at a concrete input: the diagonal self-marker
and an off-diagonal `"0"` for word-disjoint titles. -/
theorem matrix_projection_props_witness :
    matrixCell exGraphData 0 0 = "•" ∧ matrixCell exGraphData 0 1 = "0" := by
  refine ⟨(matrix_projection_props exGraphData 0 0).2.1, ?_⟩
  have h := (matrix_projection_props exGraphData 0 1).2.2.1 (by decide)
  rw [h]
  decide

/-- C7 counterexample: a cached note without tags is returned for the query
`"None"` although neither its title, content, nor (empty) tag text contains
the query — Python renders absent tags as the string `"None"`, refuting the
claim as stated. -/
theorem search_tags_none_cex :
    (search_notes exCachePopulated exEnvDown 1 "None").ret = [exNoteNoTags] ∧
    specMatchesNote "None" exNoteNoTags = false := by
  decide

/-- C7 amended: search returns exactly the notes of the owner's note set
(as produced by the list operation) matched case-insensitively against the
title, the content, and the Python string rendering of the tags (`"None"`
when absent); it never contacts a remote search endpoint, and with a cache
entry present it performs no network call at all. -/
theorem search_filters_note_set (c : Cache) (env : Env) (uid : Nat) (q : String) :
    (search_notes c env uid q).ret =
      (get_user_notes c env uid).ret.filter (amendedMatchesNote q) ∧
    ApiCall.searchRemote ∉ (search_notes c env uid q).calls ∧
    (∀ notes, c uid = some notes → (search_notes c env uid q).calls = []) := by
  have hpred : amendedMatchesNote q = noteMatches q := rfl
  have hcalls : (search_notes c env uid q).calls = (get_user_notes c env uid).calls := by
    unfold search_notes
    by_cases he : (get_user_notes c env uid).ret.isEmpty <;> simp [he]
  refine ⟨?_, ?_, ?_⟩
  · unfold search_notes
    by_cases he : (get_user_notes c env uid).ret.isEmpty
    · rw [List.isEmpty_iff] at he
      simp [he]
    · simp only [Bool.not_eq_true] at he
      simp [he, hpred]
  · rw [hcalls]
    unfold get_user_notes
    cases hc : c uid with
    | some notes => simp
    | none =>
      by_cases hh : env.healthy
      · cases hf : env.fetch <;> simp [hh, hf]
      · simp only [Bool.not_eq_true] at hh
        simp [hh]
  · intro notes hc
    rw [hcalls]
    unfold get_user_notes
    simp [hc]

/-- Witness for C7 (amended) at a concrete input: the spec's
`"zz-no-match"` scenario on a populated cache yields the empty sequence
with no network call. -/
theorem search_filters_note_set_witness :
    (search_notes exCachePopulated exEnvDown 1 "zz-no-match").ret = [] ∧
    (search_notes exCachePopulated exEnvDown 1 "zz-no-match").calls = [] := by
  constructor
  · have h := (search_filters_note_set exCachePopulated exEnvDown 1 "zz-no-match").1
    rw [h]
    decide
  · exact (search_filters_note_set exCachePopulated exEnvDown 1 "zz-no-match").2.2
      [exNoteNoTags] rfl

/-- C8 counterexample: the remote-path create result and the local fallback
result have different key sets, refuting shape indistinguishability as
stated. -/
theorem create_shape_cex :
    shape (add_note emptyCache exEnvUp 1 "T" "C" none).ret ≠
      shape (add_note emptyCache exEnvDown 1 "T" "C" none).ret ∧
    shape (add_note emptyCache exEnvUp 1 "T" "C" none).ret =
      ["id", "message", "status"] ∧
    shape (add_note emptyCache exEnvDown 1 "T" "C" none).ret = ["id", "title"] := by
  decide

/-- C8 amended: both creation paths expose an `id` field, but their shapes
differ: the remote path (answered by the server's create endpoint) returns
the keys `id`, `message`, `status`, while the local fallback returns the
keys `id`, `title` — so callers can distinguish the two by shape. -/
theorem create_result_shapes (c : Cache) (env : Env) (uid : Nat)
    (title content : String) (tags : Option String) (db : ServerDb)
    (uid2 : Nat) (t2 c2 : String) (tg2 : Option String) :
    (env.healthy = true →
      env.createResp = some (createNoteEndpoint db uid2 t2 c2 tg2).2 →
      shape (add_note c env uid title content tags).ret =
        ["id", "message", "status"] ∧
      "id" ∈ shape (add_note c env uid title content tags).ret) ∧
    (env.healthy = false →
      shape (add_note c env uid title content tags).ret = ["id", "title"] ∧
      "id" ∈ shape (add_note c env uid title content tags).ret) ∧
    (["id", "message", "status"] : List String) ≠ ["id", "title"] := by
  refine ⟨?_, ?_, by decide⟩
  · intro hh hcr
    simp only [createNoteEndpoint, dbAddNote] at hcr
    simp [add_note, hh, hcr, shape]
  · intro hh
    simp [add_note, hh, addNoteLocal, shape]

/-- Witness for C8 (amended) at concrete inputs: the two shapes evaluated
on the example environments. -/
theorem create_result_shapes_witness :
    shape (add_note emptyCache exEnvUp 1 "T" "C" none).ret =
      ["id", "message", "status"] ∧
    shape (add_note emptyCache exEnvDown 1 "T" "C" none).ret = ["id", "title"] := by
  constructor
  · exact ((create_result_shapes emptyCache exEnvUp 1 "T" "C" none
      ⟨[], [], 0⟩ 1 "T" "C" none).1 rfl rfl).1
  · exact ((create_result_shapes emptyCache exEnvDown 1 "T" "C" none
      ⟨[], [], 0⟩ 1 "T" "C" none).2.1 rfl).1

/-- C9 counterexample: with the clock at millisecond 1 and a fresh server
database, the local fallback id and the next remote-assigned id are both 1
— the code gives no structural guarantee that the id spaces are disjoint. -/
theorem id_collision_cex :
    (localNote ⟨false, none, .failed, false, 1, 0⟩ 1 "T" "C" none).id =
      (dbAddNote ⟨[], [], 0⟩ 1 "T" "C" none).2 := by
  decide

/-- C9 amended: local ids (epoch milliseconds) collide with no remote id
provided every id the remote store has assigned, and the one it assigns
next, stays below the clock's millisecond value — which holds in practice
since remote ids count sequentially from 1 while the clock exceeds 10^12. -/
theorem local_remote_id_disjoint (db : ServerDb) (env : Env) (uid : Nat)
    (title content : String) (tags : Option String) (uid2 : Nat)
    (t2 c2 : String) (tg2 : Option String)
    (hseq : ∀ n ∈ db.notes, n.id ≤ db.seq) (hclk : db.seq + 1 < env.nowMillis) :
    (∀ n ∈ db.notes, (localNote env uid title content tags).id ≠ n.id) ∧
    (localNote env uid title content tags).id ≠ (dbAddNote db uid2 t2 c2 tg2).2 := by
  constructor
  · intro n hn
    have hle := hseq n hn
    simp only [localNote, dbAddNote]
    omega
  · simp only [localNote, dbAddNote]
    omega

/-- Witness for C9 (amended) at a concrete input: clock value 1000 against
the example database with sequence value 1. -/
theorem local_remote_id_disjoint_witness :
    (∀ n ∈ exDbForeign.notes,
      (localNote ⟨false, none, .failed, false, 1000, 0⟩ 1 "T" "C" none).id ≠ n.id) ∧
    (localNote ⟨false, none, .failed, false, 1000, 0⟩ 1 "T" "C" none).id ≠
      (dbAddNote exDbForeign 1 "T" "C" none).2 :=
  local_remote_id_disjoint exDbForeign ⟨false, none, .failed, false, 1000, 0⟩
    1 "T" "C" none 1 "T" "C" none (by decide) (by decide)

end BotServer
